import Mathlib

/-!
Verification of the command & mode control subsystem of an ATTiny85 CW keyer
(`main.c`). The C code is shallowly embedded: 16-bit `word` arithmetic becomes
`Nat` with explicit `% 65536`, characters become their ASCII codes as `Nat`,
static state is threaded explicitly, and calls into the excluded keying engine
(`yack.c`) are recorded as explicit action events.

Constants that live in the engine header `yack.h` (not part of the sources
here) are modelled from the specification and marked as such.
-/

/-- Modelled from the spec: `TRUE` from yack.h, the numeric truth sentinel (1)
that `commandmode` reuses as its "command handled" marker. -/
def TRUE : Nat := 1

/-- Modelled from the spec: `FALSE` from yack.h (0). -/
def FALSE : Nat := 0

/-- Modelled from the spec: `YACKSECS` from yack.h converts seconds into
heartbeat ticks; the scheduler tick is nominally every 10 ms, so one second is
100 ticks. -/
def YACKSECS (n : Nat) : Nat := n * 100

/-- Modelled from the spec: `DEFTIMEOUT` from yack.h, the command-mode idle
timeout in seconds (the spec states 10 s, matching the comment in
`commandmode`). -/
def DEFTIMEOUT : Nat := 10

/-- Modelled from the spec: `MACTIMEOUT` from yack.h, the shorter
post-macro-playback timeout in seconds (shorter than `DEFTIMEOUT`). -/
def MACTIMEOUT : Nat := 5

/-! ## Random sequence generator (`lfsr`, main.c lines 147-173) -/

/-- The 16-bit Galois LFSR update from `lfsr`:
`lfsr = (lfsr >> 1) ^ (-(lfsr & 1u) & 0xB400u)`.
On 16-bit unsigned arithmetic `-(1) & 0xB400 = 0xB400` and `-(0) & 0xB400 = 0`,
so the mask term is `0xB400` exactly when the low bit was set. The register is
a `word`, hence the explicit reduction modulo 2^16. -/
def lfsrStep (s : Nat) : Nat :=
  ((s >>> 1) ^^^ (if s % 2 = 1 then 0xB400 else 0)) % 65536

/-- The fixed initial seed of the static register: `static word lfsr = 0xACE1`. -/
def lfsrSeed : Nat := 0xACE1

/-- The `while (random >= n) random -= n;` loop of `lfsr`, written with an
explicit fuel argument so that it is structurally recursive; `reduceSub` below
supplies fuel `r`, which dominates the loop's iteration count whenever
`0 < n`. -/
def reduceSubFuel : Nat → Nat → Nat → Nat
  | 0, r, _ => r
  | f + 1, r, n => if n ≤ r then reduceSubFuel f (r - n) n else r

/-- The "cheap modulo" by repeated subtraction used in `lfsr`. -/
def reduceSub (r n : Nat) : Nat := reduceSubFuel r r n

/-- One call of `word lfsr(byte n)`: advance the static register, take the
upper byte of the new state (`random = lfsr >> 8`), reduce it modulo `n` by
repeated subtraction. Returns (result, new register state). -/
def lfsr (n : Nat) (s : Nat) : Nat × Nat :=
  let s' := lfsrStep s
  (reduceSub (s' >>> 8) n, s')

/-- The outputs of `k` successive calls `lfsr(n)` starting from register
state `s`. -/
def lfsrCalls (n : Nat) : Nat → Nat → List Nat
  | 0, _ => []
  | k + 1, s => (lfsr n s).1 :: lfsrCalls n k (lfsr n s).2

/-- The output of the `j`-th call of `lfsr(n)` (0-based) as a function of the
initial register state only. -/
def lfsrNth (n s j : Nat) : Nat := (lfsr n (Nat.iterate lfsrStep j s)).1

/-- The first `k` outputs, each written as a function of seed and call index. -/
def lfsrNthSeq (n s k : Nat) : List Nat := (List.range k).map (fun j => lfsrNth n s j)

/-! ## Callsign synthesizer (`rndcall`, main.c lines 179-200) -/

/-- One iteration of the `rndcall` loop body: index 2 yields
`lfsr(10) + '0'`, every other index yields `lfsr(26) + 'A'`.
Characters are their ASCII codes ('0' = 48, 'A' = 65). -/
def rndcallChar (i s : Nat) : Nat × Nat :=
  if i = 2 then (48 + (lfsr 10 s).1, (lfsr 10 s).2)
  else (65 + (lfsr 26 s).1, (lfsr 26 s).2)

/-- The `for (i=0;i<5;i++)` loop of `rndcall`, with the remaining iteration
count as the (structural) first argument and `i` the current index. -/
def rndcallFrom : Nat → Nat → Nat → List Nat × Nat
  | 0, _, s => ([], s)
  | f + 1, i, s =>
    let p := rndcallChar i s
    let q := rndcallFrom f (i + 1) p.2
    (p.1 :: q.1, q.2)

/-- `rndcall`: build the 5-character random callsign, threading the LFSR
register. -/
def rndcall (s : Nat) : List Nat × Nat := rndcallFrom 5 0 s

/-! ### Lemmas about the generator -/

theorem reduceSubFuel_mod (f : Nat) : ∀ r n, 0 < n → r ≤ f → reduceSubFuel f r n = r % n := by
  induction f with
  | zero =>
    intro r n hn hr
    have : r = 0 := Nat.le_zero.mp hr
    subst this
    simp [reduceSubFuel]
  | succ f ih =>
    intro r n hn hr
    by_cases h : n ≤ r
    · have h1 : r - n ≤ f := by omega
      rw [reduceSubFuel, if_pos h, ih _ _ hn h1, ← Nat.mod_eq_sub_mod h]
    · rw [reduceSubFuel, if_neg h, Nat.mod_eq_of_lt (by omega)]

theorem reduceSub_mod (r n : Nat) (hn : 0 < n) : reduceSub r n = r % n :=
  reduceSubFuel_mod r r n hn (Nat.le_refl r)

theorem reduceSub_lt (r n : Nat) (hn : 0 < n) : reduceSub r n < n := by
  rw [reduceSub_mod r n hn]
  exact Nat.mod_lt _ hn

theorem lfsr_fst (n s : Nat) (hn : 0 < n) : (lfsr n s).1 = (lfsrStep s >>> 8) % n := by
  simp [lfsr, reduceSub_mod _ _ hn]

theorem lfsrCalls_eq_map (n : Nat) : ∀ k s, lfsrCalls n k s = lfsrNthSeq n s k := by
  intro k
  induction k with
  | zero => intro s; simp [lfsrCalls, lfsrNthSeq]
  | succ k ih =>
    intro s
    have hhead : lfsrNth n s 0 = (lfsr n s).1 := by
      simp [lfsrNth]
    rw [lfsrCalls, ih, lfsrNthSeq, lfsrNthSeq, List.range_succ_eq_map]
    rw [List.map_cons, List.map_map]
    rw [hhead]
    congr 1

/-- C5: For every bound n in [2, 255] and every LFSR state (in particular every
reachable one), `lfsr n` returns a value strictly in [0, n); the register
update is `state = (state >> 1) XOR (0xB400 if the low bit was set else 0)`
(16-bit), the output is the high byte of the new state reduced modulo n by
repeated subtraction, and the sequence of outputs is a deterministic function
of the initial seed and the number of calls. -/
theorem lfsr_bounded_deterministic (n s k : Nat) (h2 : 2 ≤ n) (h255 : n ≤ 255) :
    (lfsr n s).1 < n ∧
    (lfsr n s).2 = ((s >>> 1) ^^^ (if s % 2 = 1 then 0xB400 else 0)) % 65536 ∧
    (lfsr n s).1 = (lfsrStep s >>> 8) % n ∧
    lfsrCalls n k s = lfsrNthSeq n s k := by
  have hn : 0 < n := by omega
  refine ⟨?_, ?_, lfsr_fst n s hn, lfsrCalls_eq_map n k s⟩
  · simp [lfsr]
    exact reduceSub_lt _ _ hn
  · simp [lfsr, lfsrStep]

/-- Witness for C5 at n = 26, s = 0xACE1, k = 3. -/
theorem lfsr_bounded_deterministic_witness :
    (lfsr 26 44257).1 < 26 ∧
    (lfsr 26 44257).2 = ((44257 >>> 1) ^^^ (if 44257 % 2 = 1 then 0xB400 else 0)) % 65536 ∧
    (lfsr 26 44257).1 = (lfsrStep 44257 >>> 8) % 26 ∧
    lfsrCalls 26 3 44257 = lfsrNthSeq 26 44257 3 :=
  lfsr_bounded_deterministic 26 44257 3 (by decide) (by decide)

/-- C10: the LFSR register, initialized to the non-zero seed 0xACE1, stays
non-zero: the update maps every non-zero 16-bit state to a non-zero 16-bit
state, and hence every iterate of the update from the seed is non-zero. -/
theorem lfsrStep_nonzero (s k : Nat) (h0 : 0 < s) (h16 : s < 65536) :
    (lfsrStep s ≠ 0 ∧ lfsrStep s < 65536) ∧ Nat.iterate lfsrStep k lfsrSeed ≠ 0 := by
  constructor
  · constructor
    · have hhalf : s >>> 1 < 32768 := by
        rw [Nat.shiftRight_one]
        omega
      by_cases hpar : s % 2 = 1
      · rw [lfsrStep, if_pos hpar]
        have hx : (s >>> 1) ^^^ 0xB400 < 65536 := by
          have h1 : s >>> 1 < 2 ^ 16 := by omega
          have h2 : (0xB400 : Nat) < 2 ^ 16 := by decide
          exact Nat.xor_lt_two_pow h1 h2
        rw [Nat.mod_eq_of_lt hx]
        intro hzero
        have := Nat.xor_eq_zero.mp hzero
        omega
      · rw [lfsrStep, if_neg hpar]
        have hs2 : s >>> 1 < 65536 := by omega
        rw [Nat.xor_zero, Nat.mod_eq_of_lt hs2]
        rw [Nat.shiftRight_one]
        omega
    · exact Nat.mod_lt _ (by decide)
  · -- invariant: every iterate is non-zero and < 65536
    have inv : ∀ m, 0 < Nat.iterate lfsrStep m lfsrSeed ∧ Nat.iterate lfsrStep m lfsrSeed < 65536 := by
      intro m
      induction m with
      | zero => exact ⟨by decide, by decide⟩
      | succ m ih =>
        rw [Function.iterate_succ_apply']
        constructor
        · have hhalf : (Nat.iterate lfsrStep m lfsrSeed) >>> 1 < 32768 := by
            rw [Nat.shiftRight_one]
            omega
          by_cases hpar : (Nat.iterate lfsrStep m lfsrSeed) % 2 = 1
          · rw [lfsrStep, if_pos hpar]
            have hx : ((Nat.iterate lfsrStep m lfsrSeed) >>> 1) ^^^ 0xB400 < 65536 := by
              have h1 : (Nat.iterate lfsrStep m lfsrSeed) >>> 1 < 2 ^ 16 := by omega
              exact Nat.xor_lt_two_pow h1 (by decide)
            rw [Nat.mod_eq_of_lt hx]
            rcases Nat.eq_zero_or_pos (((Nat.iterate lfsrStep m lfsrSeed) >>> 1) ^^^ 0xB400) with hz | hp
            · exfalso
              have := Nat.xor_eq_zero.mp hz
              omega
            · exact hp
          · rw [lfsrStep, if_neg hpar]
            have hs2 : (Nat.iterate lfsrStep m lfsrSeed) >>> 1 < 65536 := by omega
            rw [Nat.xor_zero, Nat.mod_eq_of_lt hs2]
            rw [Nat.shiftRight_one]
            omega
        · exact Nat.mod_lt _ (by decide)
    exact Nat.pos_iff_ne_zero.mp (inv k).1

/-- Witness for C10 at s = 0xACE1 = 44257, k = 7. -/
theorem lfsrStep_nonzero_witness :
    (lfsrStep 44257 ≠ 0 ∧ lfsrStep 44257 < 65536) ∧ Nat.iterate lfsrStep 7 lfsrSeed ≠ 0 :=
  lfsrStep_nonzero 44257 7 (by decide) (by decide)

/-- C6: the synthesized callsign is a 5-element sequence whose positions
0, 1, 3, 4 each equal 'A' + lfsr(26) for the successive register states (hence
lie in 'A'..'Z' = 65..90) and whose position 2 equals '0' + lfsr(10) (hence
lies in '0'..'9' = 48..57): pattern [A-Z][A-Z][0-9][A-Z][A-Z]. -/
theorem rndcall_shape (s : Nat) :
    (rndcall s).1 =
      [65 + lfsrNth 26 s 0, 65 + lfsrNth 26 s 1, 48 + lfsrNth 10 s 2,
       65 + lfsrNth 26 s 3, 65 + lfsrNth 26 s 4] ∧
    (rndcall s).1.length = 5 ∧
    (65 ≤ (rndcall s).1.getD 0 0 ∧ (rndcall s).1.getD 0 0 ≤ 90) ∧
    (65 ≤ (rndcall s).1.getD 1 0 ∧ (rndcall s).1.getD 1 0 ≤ 90) ∧
    (48 ≤ (rndcall s).1.getD 2 0 ∧ (rndcall s).1.getD 2 0 ≤ 57) ∧
    (65 ≤ (rndcall s).1.getD 3 0 ∧ (rndcall s).1.getD 3 0 ≤ 90) ∧
    (65 ≤ (rndcall s).1.getD 4 0 ∧ (rndcall s).1.getD 4 0 ≤ 90) := by
  have hshape : (rndcall s).1 =
      [65 + lfsrNth 26 s 0, 65 + lfsrNth 26 s 1, 48 + lfsrNth 10 s 2,
       65 + lfsrNth 26 s 3, 65 + lfsrNth 26 s 4] := rfl
  have hb : ∀ n j, 0 < n → lfsrNth n s j < n := by
    intro n j hn
    rw [lfsrNth]
    simp only [lfsr]
    exact reduceSub_lt _ _ hn
  have b0 : lfsrNth 26 s 0 < 26 := hb 26 0 (by decide)
  have b1 : lfsrNth 26 s 1 < 26 := hb 26 1 (by decide)
  have b2 : lfsrNth 10 s 2 < 10 := hb 10 2 (by decide)
  have b3 : lfsrNth 26 s 3 < 26 := hb 26 3 (by decide)
  have b4 : lfsrNth 26 s 4 < 26 := hb 26 4 (by decide)
  rw [hshape]
  refine ⟨rfl, rfl, ?_, ?_, ?_, ?_, ?_⟩ <;> simp <;> omega

/-! ## Callsign trainer (`cstrain`, main.c lines 205-268)

The trainer state: the current 5-character callsign buffer, the match index
`i`, the LFSR register, plus counters recording how often the error prosign
(`yackerror`) and the round acknowledgement (`yackchar('R')`) were sounded.
Timeout/control-key aborts and the audible replay of the callsign are not
part of the per-character matching logic modelled here. -/

structure TrainSt where
  call : List Nat
  i : Nat
  errors : Nat
  acks : Nat
  rng : Nat
deriving DecidableEq

/-- Processing one decoded character in `cstrain`:
`if (call[i] == c) i++; else { yackerror(); i = 0; }` (lines 255-261), and —
when the inner `while (i < 5)` loop thereby finishes — `yackchar('R')` and a
fresh `rndcall` for the next round (lines 223 and 265). -/
def cstrainChar (st : TrainSt) (c : Nat) : TrainSt :=
  let st1 :=
    if st.call.getD st.i 0 = c then { st with i := st.i + 1 }
    else { st with i := 0, errors := st.errors + 1 }
  if st1.i = 5 then
    let p := rndcall st1.rng
    { call := p.1, i := 0, errors := st1.errors, acks := st1.acks + 1, rng := p.2 }
  else st1

/-- Feeding a stream of decoded characters to the trainer. -/
def cstrainRun (st : TrainSt) (cs : List Nat) : TrainSt := cs.foldl cstrainChar st

theorem dropCons (xs : List Nat) : ∀ i c l, xs.drop i = c :: l →
    xs.getD i 0 = c ∧ xs.drop (i + 1) = l := by
  induction xs with
  | nil =>
    intro i c l h
    simp [List.drop_nil] at h
  | cons x xs ih =>
    intro i c l h
    cases i with
    | zero =>
      simp only [List.drop_zero] at h
      cases h
      exact ⟨rfl, by simp⟩
    | succ i =>
      simp only [List.drop_succ_cons] at h
      have := ih i c l h
      exact ⟨this.1, by simpa [List.drop_succ_cons] using this.2⟩

theorem cstrain_completes : ∀ (l : List Nat) (st : TrainSt),
    st.call.length = 5 → st.i + l.length = 5 → l ≠ [] → st.call.drop st.i = l →
    cstrainRun st l =
      ⟨(rndcall st.rng).1, 0, st.errors, st.acks + 1, (rndcall st.rng).2⟩ := by
  intro l
  induction l with
  | nil => intro st _ _ hne _; exact absurd rfl hne
  | cons c l' ih =>
    intro st hlen hsum _ hdrop
    have hd := dropCons st.call st.i c l' hdrop
    have hmatch : st.call.getD st.i 0 = c := hd.1
    cases l' with
    | nil =>
      have hi : st.i + 1 = 5 := by simpa using hsum
      show cstrainRun (cstrainChar st c) [] = _
      rw [cstrainRun, List.foldl_nil, cstrainChar]
      simp only [hmatch, if_pos rfl, hi, if_pos]
    | cons c2 l'' =>
      have hi : st.i + 1 ≠ 5 := by simp at hsum ⊢; omega
      have hstep : cstrainChar st c = { st with i := st.i + 1 } := by
        rw [cstrainChar]
        simp only [hmatch, if_pos rfl]
        simp [hi]
      show cstrainRun (cstrainChar st c) (c2 :: l'') = _
      rw [hstep]
      exact ih { st with i := st.i + 1 } (by simpa using hlen)
        (by simp at hsum ⊢; omega) (by simp) (by simpa using hd.2)

/-- C4: a decoded character that does not match the expected next character of
the callsign sounds the error indication and resets the match index to zero
while the callsign buffer (and the round/ack state) is unchanged; and after
one wrong character followed by the full correct sequence the error fired
exactly once, the round completed with one acknowledgement, and a freshly
synthesized callsign (with the advanced LFSR register) is installed for the
next round. -/
theorem cstrain_error_then_complete (st : TrainSt) (c : Nat) (call : List Nat) (w rng : Nat)
    (hmis : st.call.getD st.i 0 ≠ c)
    (hlen : call.length = 5) (hw : w ≠ call.getD 0 0) :
    cstrainChar st c = { st with i := 0, errors := st.errors + 1 } ∧
    cstrainRun ⟨call, 0, 0, 0, rng⟩ (w :: call) =
      ⟨(rndcall rng).1, 0, 1, 1, (rndcall rng).2⟩ := by
  constructor
  · rw [cstrainChar]
    simp only [if_neg hmis]
    simp
  · show cstrainRun (cstrainChar ⟨call, 0, 0, 0, rng⟩ w) call = _
    have hc : ¬ (call[0]?.getD 0 = w) := by
      rw [← List.getD_eq_getElem?_getD]
      exact fun h => hw h.symm
    have hstep : cstrainChar ⟨call, 0, 0, 0, rng⟩ w = ⟨call, 0, 1, 0, rng⟩ := by
      simp [cstrainChar, hc]
    rw [hstep]
    exact cstrain_completes call ⟨call, 0, 1, 0, rng⟩ hlen (by simpa using hlen)
      (by intro h; rw [h] at hlen; simp at hlen) (by simp)

/-- Witness for C4: callsign "AB0CD" (= [65,66,48,67,68]), wrong first
character 'Z' (= 90), register state 1. -/
theorem cstrain_error_then_complete_witness :
    cstrainChar ⟨[65, 66, 48, 67, 68], 0, 0, 0, 1⟩ 90 =
      { (⟨[65, 66, 48, 67, 68], 0, 0, 0, 1⟩ : TrainSt) with i := 0, errors := 0 + 1 } ∧
    cstrainRun ⟨[65, 66, 48, 67, 68], 0, 0, 0, 1⟩ (90 :: [65, 66, 48, 67, 68]) =
      ⟨(rndcall 1).1, 0, 1, 1, (rndcall 1).2⟩ :=
  cstrain_error_then_complete ⟨[65, 66, 48, 67, 68], 0, 0, 0, 1⟩ 90
    [65, 66, 48, 67, 68] 90 1 (by decide) (by decide) (by decide)

/-! ## Beacon scheduler (`beacon`, main.c lines 272-359) -/

/-- The outcome of `beacon(RECORD)`: what was written to the non-volatile
interval slot (`yackuser(WRITE, 1, interval)`), what number was echoed
(`yacknumber`), and whether the error prosign (`yackerror`) sounded. -/
structure RecOut where
  persisted : Option Nat
  spoken : Option Nat
  errored : Bool
deriving DecidableEq

/-- The digit-accumulation loop of `beacon(RECORD)` over the decoded character
stream (ASCII codes): characters in '0'..'9' (48..57) perform
`interval = interval * 10 + (c - '0')` on the 16-bit `interval`; every other
character is ignored by the accumulator. `interval` starts from the explicit
reset to 0. -/
def beaconAccumChars (cs : List Nat) : Nat :=
  cs.foldl (fun v c => if 48 ≤ c ∧ c ≤ 57 then (v * 10 + (c - 48)) % 65536 else v) 0

/-- `beacon(RECORD)` after the capture loop times out: if the accumulated
value is at most 9999 (the `interval >= 0` half of the test is vacuous for an
unsigned value) it is persisted and echoed, otherwise the error prosign sounds
and nothing is persisted. -/
def beaconRecord (cs : List Nat) : RecOut :=
  let v := beaconAccumChars cs
  if v ≤ 9999 then ⟨some v, some v, false⟩ else ⟨none, none, true⟩

/-- C2: digits decode into the accumulator via interval = interval*10 + digit
(16-bit); on timeout any accumulated value within [0, 9999] is persisted and
echoed as a spoken number, and any accumulated value exceeding 9999 — e.g. the
digit sequence "99999", which accumulates to 34463 — sounds the error
indication with no persisted change. -/
theorem beacon_record_range (cs : List Nat) :
    (beaconAccumChars cs ≤ 9999 →
      beaconRecord cs = ⟨some (beaconAccumChars cs), some (beaconAccumChars cs), false⟩) ∧
    (9999 < beaconAccumChars cs → beaconRecord cs = ⟨none, none, true⟩) ∧
    beaconAccumChars [49, 50, 51, 52] = 1234 ∧
    beaconRecord [49, 50, 51, 52] = ⟨some 1234, some 1234, false⟩ ∧
    beaconAccumChars [57, 57, 57, 57, 57] = 34463 ∧
    beaconRecord [57, 57, 57, 57, 57] = ⟨none, none, true⟩ := by
  refine ⟨?_, ?_, by decide, by decide, by decide, by decide⟩
  · intro h
    rw [beaconRecord]
    simp only [if_pos h]
  · intro h
    rw [beaconRecord]
    simp only [if_neg (by omega : ¬ beaconAccumChars cs ≤ 9999)]

/-- Witness for C2: digit characters "1234" (persisted and echoed) and
"99999" (error, nothing persisted). -/
theorem beacon_record_range_witness :
    beaconRecord [49, 50, 51, 52] = ⟨some 1234, some 1234, false⟩ ∧
    beaconRecord [57, 57, 57, 57, 57] = ⟨none, none, true⟩ :=
  ⟨(beacon_record_range [49, 50, 51, 52]).1 (by decide),
   (beacon_record_range [57, 57, 57, 57, 57]).2.1 (by decide)⟩

/-- The `beacon(PLAY)` state: the static `interval` and `timer` words, plus
counters for the one-second-counter expirations (`timer == 0` branches taken)
and the message-4 playbacks triggered. -/
structure BeaconSt where
  interval : Nat
  timer : Nat
  exps : Nat
  plays : Nat
deriving DecidableEq

/-- One invocation of `beacon(PLAY)` from the 10 ms core loop, with persisted
interval value `p` (`yackuser(READ, 1, 0)`): lazily load `interval` when it
still holds the 65000 sentinel; then, if `interval` is non-zero, count `timer`
down, and on its expiry re-arm it with `YACKSECS(1)` and decrement `interval` —
if that reaches zero, reload `interval` from storage and play message 4.
(The POWERSAVE sleep inhibition has no bearing on the counter itself.) -/
def beaconTick (p : Nat) (st : BeaconSt) : BeaconSt :=
  let st := if st.interval = 65000 then { st with interval := p } else st
  if st.interval ≠ 0 then
    if st.timer ≠ 0 then { st with timer := st.timer - 1 }
    else
      let st := { st with exps := st.exps + 1, timer := YACKSECS 1 }
      if st.interval - 1 = 0 then
        { st with interval := p, plays := st.plays + 1 }
      else
        { st with interval := st.interval - 1 }
  else st

/-- C3: with a persisted interval of 2 and `beacon(PLAY)` ticking from the
reset state (sentinel 65000, timer 0), no playback occurs during the first 101
ticks; the playback fires on tick 102, which is exactly the second expiration
of the one-second counter, and immediately afterwards `interval` holds the
value 2 reloaded from persisted storage. -/
theorem beacon_play_fires_after_two :
    ((List.range 102).all
      fun k => (Nat.iterate (beaconTick 2) k ⟨65000, 0, 0, 0⟩).plays == 0) = true ∧
    (Nat.iterate (beaconTick 2) 102 ⟨65000, 0, 0, 0⟩).plays = 1 ∧
    (Nat.iterate (beaconTick 2) 102 ⟨65000, 0, 0, 0⟩).exps = 2 ∧
    (Nat.iterate (beaconTick 2) 102 ⟨65000, 0, 0, 0⟩).interval = 2 := by
  refine ⟨by decide, by decide, by decide, by decide⟩

/-! ## Adjustment loops (`pitch` lines 67-101, `setfarns` lines 105-142)

Each polling cycle samples the control key and the raw DIT/DAH contact lines.
The accumulator counts the engine parameter calls: `incs` counts the
parameter-increase operation (`yackpitch(DOWN)` — "increase the pitch" — in
`pitch`; `yackspeed(DOWN, FARNSWORTH)` — "increase interword spacing" — in
`setfarns`), `decs` the corresponding decrease operation, and `plays` the
audible patterns played. The input list supplies one sample per executed
cycle; `starved` marks runs whose input list ended while the loop would have
continued (such runs are outside any claim). -/

structure CycleIn where
  ctrl : Bool
  dit : Bool
  dah : Bool
deriving DecidableEq

structure AdjAcc where
  incs : Nat
  decs : Nat
  plays : Nat
deriving DecidableEq

inductive Cause where
  | timeout
  | interrupted
  | starved
deriving DecidableEq

/-- `PITCHREPEAT` (main.c line 58). -/
def PITCHREPEAT : Nat := 10

/-- `FARNSREPEAT` (main.c line 59). -/
def FARNSREPEAT : Nat := 10

/-- The `pitch` loop: while the repeat counter is non-zero, decrement it, play
an 'E', return on the control key, and on a DIT (resp. DAH) contact call the
pitch increase (resp. decrease) operation and reset the counter to
`PITCHREPEAT`. Both contacts are tested independently each cycle. -/
def pitchRun : Nat → List CycleIn → AdjAcc → AdjAcc × Cause
  | 0, _, acc => (acc, .timeout)
  | _ + 1, [], acc => (acc, .starved)
  | t + 1, i :: rest, acc =>
    let acc1 : AdjAcc := { acc with plays := acc.plays + 1 }
    if i.ctrl then (acc1, .interrupted)
    else
      let acc2 := if i.dit then { acc1 with incs := acc1.incs + 1 } else acc1
      let t2 := if i.dit then PITCHREPEAT else t
      let acc3 := if i.dah then { acc2 with decs := acc2.decs + 1 } else acc2
      let t3 := if i.dah then PITCHREPEAT else t2
      pitchRun t3 rest acc3

/-- The `setfarns` loop: `while (timer++ != FARNSREPEAT)` — exit when the
pre-increment counter reads 10; inside, return on the control key (checked
before playing), play the DIT-gap-DAH-gap-Farnsworth pattern, and on a DIT
(else a DAH) contact call the Farnsworth increase (resp. decrease) operation
and reset the counter to 0. -/
def farnsRun : Nat → List CycleIn → AdjAcc → AdjAcc × Cause
  | t, [], acc => if t = FARNSREPEAT then (acc, .timeout) else (acc, .starved)
  | t, i :: rest, acc =>
    if t = FARNSREPEAT then (acc, .timeout)
    else if i.ctrl then (acc, .interrupted)
    else
      let acc1 : AdjAcc := { acc with plays := acc.plays + 1 }
      if i.dit then farnsRun 0 rest { acc1 with incs := acc1.incs + 1 }
      else if i.dah then farnsRun 0 rest { acc1 with decs := acc1.decs + 1 }
      else farnsRun (t + 1) rest acc1

/-- A polling cycle with no control-key press and no paddle contact. -/
def quietCycle (i : CycleIn) : Prop := i.ctrl = false ∧ i.dit = false ∧ i.dah = false

instance (i : CycleIn) : Decidable (quietCycle i) := by
  unfold quietCycle
  infer_instance

theorem pitchRun_quiet : ∀ (t : Nat) (inp : List CycleIn) (acc : AdjAcc),
    (∀ i ∈ inp, quietCycle i) → t ≤ inp.length →
    pitchRun t inp acc = ({ acc with plays := acc.plays + t }, .timeout) := by
  intro t
  induction t with
  | zero => intro inp acc _ _; cases inp <;> simp [pitchRun]
  | succ t ih =>
    intro inp acc hq hlen
    cases inp with
    | nil => simp at hlen
    | cons i rest =>
      have hqi := hq i (by simp)
      obtain ⟨hc, hdi, hda⟩ := hqi
      rw [pitchRun]
      simp only [hc, hdi, hda, if_neg, Bool.false_eq_true, if_false]
      rw [ih rest _ (fun j hj => hq j (by simp [hj])) (by simpa using hlen)]
      have harith : acc.plays + 1 + t = acc.plays + (t + 1) := by omega
      rw [harith]

theorem farnsRun_quiet : ∀ (d t : Nat) (inp : List CycleIn) (acc : AdjAcc),
    t + d = FARNSREPEAT → (∀ i ∈ inp, quietCycle i) → d ≤ inp.length →
    farnsRun t inp acc = ({ acc with plays := acc.plays + d }, .timeout) := by
  intro d
  induction d with
  | zero =>
    intro t inp acc hsum _ _
    have ht : t = FARNSREPEAT := by omega
    cases inp <;> simp [farnsRun, ht]
  | succ d ih =>
    intro t inp acc hsum hq hlen
    have ht : t ≠ FARNSREPEAT := by rw [FARNSREPEAT] at hsum ⊢; omega
    cases inp with
    | nil => simp at hlen
    | cons i rest =>
      have hqi := hq i (by simp)
      obtain ⟨hc, hdi, hda⟩ := hqi
      rw [farnsRun]
      simp only [ht, hc, hdi, hda, Bool.false_eq_true, if_false]
      rw [ih (t + 1) rest _ (by omega) (fun j hj => hq j (by simp [hj])) (by simpa using hlen)]
      have harith : acc.plays + 1 + d = acc.plays + (d + 1) := by omega
      rw [harith]

/-- C7: in both adjustment loops a DIT contact invokes the engine's
parameter-increase operation and a DAH contact the parameter-decrease
operation, and each contact resets the repeat counter so that 10 further
contact-free cycles are required (`PITCHREPEAT` for `pitch`; back to 0, i.e.
10 cycles before the pre-increment counter reads `FARNSREPEAT`, for
`setfarns`); each loop terminates with a timeout exactly when the required
number of consecutive contact-free cycles passes, or immediately with the
already-applied accumulated changes (no rollback) when the control key is
detected. -/
theorem adjust_loops_behavior (t : Nat) (i : CycleIn) (inp rest : List CycleIn) (acc : AdjAcc) :
    (i.ctrl = false → i.dit = true → i.dah = false →
      pitchRun (t + 1) (i :: rest) acc =
        pitchRun PITCHREPEAT rest { acc with incs := acc.incs + 1, plays := acc.plays + 1 }) ∧
    (i.ctrl = false → i.dit = false → i.dah = true →
      pitchRun (t + 1) (i :: rest) acc =
        pitchRun PITCHREPEAT rest { acc with decs := acc.decs + 1, plays := acc.plays + 1 }) ∧
    (i.ctrl = true →
      pitchRun (t + 1) (i :: rest) acc = ({ acc with plays := acc.plays + 1 }, .interrupted)) ∧
    ((∀ j ∈ inp, quietCycle j) → t ≤ inp.length →
      pitchRun t inp acc = ({ acc with plays := acc.plays + t }, .timeout)) ∧
    (t ≠ FARNSREPEAT → i.ctrl = false → i.dit = true →
      farnsRun t (i :: rest) acc =
        farnsRun 0 rest { acc with incs := acc.incs + 1, plays := acc.plays + 1 }) ∧
    (t ≠ FARNSREPEAT → i.ctrl = false → i.dit = false → i.dah = true →
      farnsRun t (i :: rest) acc =
        farnsRun 0 rest { acc with decs := acc.decs + 1, plays := acc.plays + 1 }) ∧
    (t ≠ FARNSREPEAT → i.ctrl = true →
      farnsRun t (i :: rest) acc = (acc, .interrupted)) ∧
    (t ≤ FARNSREPEAT → (∀ j ∈ inp, quietCycle j) → FARNSREPEAT - t ≤ inp.length →
      farnsRun t inp acc = ({ acc with plays := acc.plays + (FARNSREPEAT - t) }, .timeout)) := by
  refine ⟨?_, ?_, ?_, ?_, ?_, ?_, ?_, ?_⟩
  · intro hc hdi hda
    rw [pitchRun]
    simp [hc, hdi, hda]
  · intro hc hdi hda
    rw [pitchRun]
    simp [hc, hdi, hda]
  · intro hc
    rw [pitchRun]
    simp [hc]
  · intro hq hlen
    exact pitchRun_quiet t inp acc hq hlen
  · intro ht hc hdi
    rw [farnsRun]
    simp [ht, hc, hdi]
  · intro ht hc hdi hda
    rw [farnsRun]
    simp [ht, hc, hdi, hda]
  · intro ht hc
    rw [farnsRun]
    simp [ht, hc]
  · intro ht hq hlen
    exact farnsRun_quiet (FARNSREPEAT - t) t inp acc (by omega) hq hlen

/-- Witness for C7: one DIT-contact cycle, a control-key cycle, and quiet runs
of length 10 for both loops, at concrete inputs. -/
theorem adjust_loops_behavior_witness :
    (pitchRun (3 + 1) (⟨false, true, false⟩ :: []) ⟨0, 0, 0⟩ =
      pitchRun PITCHREPEAT [] { incs := 0 + 1, decs := 0, plays := 0 + 1 }) ∧
    (pitchRun (3 + 1) (⟨false, false, true⟩ :: []) ⟨0, 0, 0⟩ =
      pitchRun PITCHREPEAT [] { incs := 0, decs := 0 + 1, plays := 0 + 1 }) ∧
    (pitchRun (3 + 1) (⟨true, false, false⟩ :: []) ⟨0, 0, 0⟩ =
      ({ incs := 0, decs := 0, plays := 0 + 1 }, .interrupted)) ∧
    (pitchRun 10 (List.replicate 10 ⟨false, false, false⟩) ⟨0, 0, 0⟩ =
      ({ incs := 0, decs := 0, plays := 0 + 10 }, .timeout)) ∧
    (farnsRun 3 (⟨false, true, false⟩ :: []) ⟨0, 0, 0⟩ =
      farnsRun 0 [] { incs := 0 + 1, decs := 0, plays := 0 + 1 }) ∧
    (farnsRun 3 (⟨false, false, true⟩ :: []) ⟨0, 0, 0⟩ =
      farnsRun 0 [] { incs := 0, decs := 0 + 1, plays := 0 + 1 }) ∧
    (farnsRun 3 (⟨true, false, false⟩ :: []) ⟨0, 0, 0⟩ =
      (⟨0, 0, 0⟩, .interrupted)) ∧
    (farnsRun 0 (List.replicate 10 ⟨false, false, false⟩) ⟨0, 0, 0⟩ =
      ({ incs := 0, decs := 0, plays := 0 + (FARNSREPEAT - 0) }, .timeout)) := by
  refine ⟨?_, ?_, ?_, ?_, ?_, ?_, ?_, ?_⟩
  · exact (adjust_loops_behavior 3 ⟨false, true, false⟩ [] [] ⟨0, 0, 0⟩).1 rfl rfl rfl
  · exact (adjust_loops_behavior 3 ⟨false, false, true⟩ [] [] ⟨0, 0, 0⟩).2.1 rfl rfl rfl
  · exact (adjust_loops_behavior 3 ⟨true, false, false⟩ [] [] ⟨0, 0, 0⟩).2.2.1 rfl
  · exact (adjust_loops_behavior 10 ⟨false, false, false⟩
      (List.replicate 10 ⟨false, false, false⟩) [] ⟨0, 0, 0⟩).2.2.2.1
      (by decide) (by decide)
  · exact (adjust_loops_behavior 3 ⟨false, true, false⟩ [] [] ⟨0, 0, 0⟩).2.2.2.2.1
      (by decide) rfl rfl
  · exact (adjust_loops_behavior 3 ⟨false, false, true⟩ [] [] ⟨0, 0, 0⟩).2.2.2.2.2.1
      (by decide) rfl rfl rfl
  · exact (adjust_loops_behavior 3 ⟨true, false, false⟩ [] [] ⟨0, 0, 0⟩).2.2.2.2.2.2.1
      (by decide) rfl
  · exact (adjust_loops_behavior 0 ⟨false, false, false⟩
      (List.replicate 10 ⟨false, false, false⟩) [] ⟨0, 0, 0⟩).2.2.2.2.2.2.2
      (by decide) (by decide) (by decide)

/-! ## Command mode dispatcher (`commandmode`, main.c lines 364-568)

One loop iteration after a character `c` (ASCII code; 0 = none decoded) has
been read: the idle-timeout re-arm (line 387), the lock-sensitive switch
(lines 393-479, skipped when `CONFLOCK` is set), the always-available switch
(lines 481-550), and the final acknowledge/error step (lines 552-559). The
`lfsr(255)` entropy call and `yackbeat()` of each iteration touch no dispatch
state and are modelled separately with the generator. Engine calls are
recorded, in order, as `Act` events. -/

inductive KMode where
  | iambicA
  | iambicB
  | ultimatic
  | dahPriority
deriving DecidableEq

inductive CfgFlag where
  | PDLSWAP
  | SIDETONE
  | TXKEY
  | TXINV
  | CONFLOCK
deriving DecidableEq

inductive FlashStr where
  | txok
  | vers
  | prgx
  | imok
deriving DecidableEq

/-- Contents of the flash strings (main.c lines 62-65). -/
def strContent : FlashStr → String
  | .txok => "R"
  | .vers => "V0.87"
  | .prgx => "#"
  | .imok => "73"

inductive Act where
  | yackreset
  | yackmode (m : KMode)
  | yacktoggle (f : CfgFlag)
  | farnsAdj
  | charOut (c : Nat)
  | msgRec (slot : Nat)
  | beaconRec
  | strOut (s : FlashStr)
  | pitchAdj
  | inhibit (b : Bool)
  | tuneMode
  | trainMode
  | msgPlay (slot : Nat)
  | wpmOut
  | yacksave
  | delayOut
  | errOut
deriving DecidableEq

/-- The lock-sensitive configuration switch (lines 395-477). Each match
performs its action(s) and overwrites `c` with `TRUE`; an unmatched `c` falls
through unchanged. -/
def lockSwitch (c : Nat) : List Act × Nat :=
  if c = 82 then ([.yackreset], TRUE)                        -- 'R': reset
  else if c = 65 then ([.yackmode .iambicA], TRUE)           -- 'A': IAMBICA
  else if c = 66 then ([.yackmode .iambicB], TRUE)           -- 'B': IAMBICB
  else if c = 76 then ([.yackmode .ultimatic], TRUE)         -- 'L': ULTIMATIC
  else if c = 68 then ([.yackmode .dahPriority], TRUE)       -- 'D': DAHPRIO
  else if c = 88 then ([.yacktoggle .PDLSWAP], TRUE)         -- 'X': paddle swap
  else if c = 83 then ([.yacktoggle .SIDETONE], TRUE)        -- 'S': sidetone
  else if c = 75 then ([.yacktoggle .TXKEY], TRUE)           -- 'K': TX keying
  else if c = 90 then ([.farnsAdj], TRUE)                    -- 'Z': Farnsworth
  else if c = 70 then ([.yacktoggle .TXINV], TRUE)           -- 'F': TX inverter
  else if c = 49 then ([.charOut 49, .msgRec 1], TRUE)       -- '1': record macro 1
  else if c = 50 then ([.charOut 50, .msgRec 2], TRUE)       -- '2': record macro 2
  else if c = 51 then ([.charOut 51, .msgRec 3], TRUE)       -- '3': record macro 3
  else if c = 52 then ([.charOut 52, .msgRec 4], TRUE)       -- '4': record macro 4
  else if c = 78 then ([.beaconRec], TRUE)                   -- 'N': beacon record
  else ([], c)

/-- The always-available switch (lines 481-550). The macro-playback cases set
`c` to `FALSE` and re-arm the exit timer with `YACKSECS(MACTIMEOUT)`; every
other match sets `c` to `TRUE` and leaves the timer alone. -/
def openSwitch (c : Nat) (timer : Nat) : List Act × Nat × Nat :=
  if c = 86 then ([.strOut .vers], TRUE, timer)              -- 'V': version
  else if c = 80 then ([.pitchAdj], TRUE, timer)             -- 'P': pitch
  else if c = 85 then                                        -- 'U': tune
    ([.inhibit false, .tuneMode, .inhibit true], TRUE, timer)
  else if c = 67 then ([.trainMode], TRUE, timer)            -- 'C': trainer
  else if c = 48 then ([.yacktoggle .CONFLOCK], TRUE, timer) -- '0': lock toggle
  else if c = 69 then                                        -- 'E': play macro 1
    ([.inhibit false, .msgPlay 1, .inhibit true], FALSE, YACKSECS MACTIMEOUT)
  else if c = 73 then                                        -- 'I': play macro 2
    ([.inhibit false, .msgPlay 2, .inhibit true], FALSE, YACKSECS MACTIMEOUT)
  else if c = 84 then                                        -- 'T': play macro 3
    ([.inhibit false, .msgPlay 3, .inhibit true], FALSE, YACKSECS MACTIMEOUT)
  else if c = 77 then                                        -- 'M': play macro 4
    ([.inhibit false, .msgPlay 4, .inhibit true], FALSE, YACKSECS MACTIMEOUT)
  else if c = 87 then ([.wpmOut], TRUE, timer)               -- 'W': WPM query
  else ([], c, timer)

/-- One dispatch iteration of the `commandmode` loop for decoded character
`c` with configuration lock state `lock` and current exit timer `timer`:
returns the engine calls made (in order) and the new timer. -/
def commandIter (lock : Bool) (c : Nat) (timer : Nat) : List Act × Nat :=
  let timer1 := if c ≠ 0 then YACKSECS DEFTIMEOUT else timer   -- line 387
  let r1 := if ¬ lock then lockSwitch c else ([], c)           -- lines 393-479
  let r2 := openSwitch r1.2 timer1                             -- lines 481-550
  let final :=                                                 -- lines 552-559
    if r2.2.1 = TRUE then [Act.yacksave, Act.delayOut, Act.strOut .txok]
    else if r2.2.1 ≠ 0 then [Act.errOut]
    else []
  (r1.1 ++ r2.1 ++ final, r2.2.2)

/-- The characters of the lock-sensitive table. -/
def lockSensitive : List Nat := [82, 65, 66, 76, 68, 88, 83, 75, 90, 70, 49, 50, 51, 52, 78]

/-- C1 counterexample: with `CONFLOCK` set, the lock-sensitive character 'A'
(65) is not silently ignored — the dispatcher sounds the error indication. -/
theorem locked_char_sounds_error : (commandIter true 65 0).1 = [Act.errOut] := by decide

/-- C1 (amended): with `CONFLOCK` set, every lock-sensitive command character
produces no state change and no acknowledgement, but the error indication IS
sounded (the character falls through to the unrecognized-character branch),
while an always-available character such as 'V' (86) still succeeds with
configuration save and the "R" acknowledgement. -/
theorem locked_dispatch (c t : Nat) (hc : c ∈ lockSensitive) :
    commandIter true c t = ([Act.errOut], YACKSECS DEFTIMEOUT) ∧
    commandIter true 86 t =
      ([Act.strOut .vers, Act.yacksave, Act.delayOut, Act.strOut .txok],
        YACKSECS DEFTIMEOUT) := by
  constructor
  · fin_cases hc <;> rfl
  · rfl

/-- Witness for C1 (amended) at c = 'A' (65), timer 0. -/
theorem locked_dispatch_witness :
    commandIter true 65 0 = ([Act.errOut], YACKSECS DEFTIMEOUT) ∧
    commandIter true 86 0 =
      ([Act.strOut .vers, Act.yacksave, Act.delayOut, Act.strOut .txok],
        YACKSECS DEFTIMEOUT) :=
  locked_dispatch 65 0 (by decide)

/-- C8: each macro-playback command ('E' 69, 'I' 73, 'T' 84, 'M' 77) plays the
corresponding message slot between keying-inhibit toggles, sounds no
acknowledgement and no error, triggers no configuration save, and re-arms the
exit timer to `YACKSECS(MACTIMEOUT)` — shorter than the idle timeout — in
either lock state. -/
theorem macro_playback_silent (lock : Bool) (t : Nat) :
    commandIter lock 69 t =
      ([.inhibit false, .msgPlay 1, .inhibit true], YACKSECS MACTIMEOUT) ∧
    commandIter lock 73 t =
      ([.inhibit false, .msgPlay 2, .inhibit true], YACKSECS MACTIMEOUT) ∧
    commandIter lock 84 t =
      ([.inhibit false, .msgPlay 3, .inhibit true], YACKSECS MACTIMEOUT) ∧
    commandIter lock 77 t =
      ([.inhibit false, .msgPlay 4, .inhibit true], YACKSECS MACTIMEOUT) ∧
    Act.yacksave ∉ (commandIter lock 69 t).1 ∧
    Act.errOut ∉ (commandIter lock 69 t).1 ∧
    Act.strOut .txok ∉ (commandIter lock 69 t).1 ∧
    YACKSECS MACTIMEOUT < YACKSECS DEFTIMEOUT := by
  cases lock <;>
    refine ⟨rfl, rfl, rfl, rfl, ?_, ?_, ?_, by decide⟩ <;>
    simp [commandIter, lockSwitch, openSwitch, TRUE, FALSE]

/-- C9: a decoded character with code 1 — the value of the `TRUE` sentinel —
matches no command case, yet the final test `c == TRUE` treats it as a
successfully handled command: the dispatcher saves configuration to EEPROM,
delays, and plays the "R" acknowledgement string, and never sounds the error
indication, although no command action was executed. -/
theorem true_sentinel_acknowledged (lock : Bool) (t : Nat) :
    commandIter lock 1 t =
      ([Act.yacksave, Act.delayOut, Act.strOut .txok], YACKSECS DEFTIMEOUT) ∧
    strContent .txok = "R" ∧
    Act.errOut ∉ (commandIter lock 1 t).1 := by
  cases lock <;>
    refine ⟨rfl, rfl, ?_⟩ <;>
    simp [commandIter, lockSwitch, openSwitch, TRUE, FALSE]
